import Mathlib

/-!
Verification development for the BannkMint AI CSV transaction service
(`src/server.py`).

The embedding models the core components of the service:

* `normalize_date`   — date-string normalization (server.py lines 85-106);
* `generate_hash`    — MD5 dedup fingerprint (lines 108-111);
* `validate_csv_content` — required-column validation (lines 113-123);
* `upload_transactions_csv` — the CSV ingestion pipeline (lines 131-211);
* `get_transactions` — date filtering and pagination (lines 213-267).

Modelling conventions:

* Python strings are `String`; all string operations used by the service
  (strip, lower, zfill, split, substring test) are re-implemented on the
  underlying character lists so that every definition evaluates by kernel
  reduction.
* Python floats are modelled by `PyNum`: either an exact rational (`fin q`)
  or the float NaN (`nan`).  The amounts and balances the service handles
  come from CSV text or numeric cells, which are decimal values; the Python
  text rendering `str(float)` is modelled by `formatRat` (shortest decimal
  form with at least one fractional digit, matching `str` on decimal
  values in the non-scientific range).
* The external `dateutil` flexible parser is not part of the repository; it
  is a parameter `duParse : String → Option String` standing for
  `lambda s: dateutil.parser.parse(s).strftime("%Y-%m-%d")`, `none` meaning
  the parse raraised.  Concrete witnesses instantiate it with `isoParse`.
* The Mongo store is a list of `Transaction` records in insertion order;
  `find_one` is a list search, `insert_one` an append.  The generated
  `id` (uuid4) and `created_at` (now) fields play no role in any claim and
  are omitted from the record.
* HTTP failures are the constructors of `UploadError`
  (415 / 413 / 422 of server.py).
-/

set_option maxRecDepth 20000

/-! ## Character-list string utilities (models of the Python string methods) -/

/-- Model of the Python membership test `c in s` for a single character. -/
def charMem (c : Char) (s : String) : Bool :=
  s.data.contains c

/-- Splits a character list at every occurrence of the separator `c`.
Mirrors the Python `str.split(sep)` behaviour for a one-character separator:
the empty string yields `[[]]`, and separators at the ends yield empty parts. -/
def splitChar (c : Char) : List Char → List (List Char)
  | [] => [[]]
  | x :: xs =>
    let r := splitChar c xs
    if x = c then [] :: r
    else
      match r with
      | [] => [[x]]
      | h :: t => (x :: h) :: t

/-- Model of the Python `s.split(c)` for a one-character separator `c`. -/
def pySplit (c : Char) (s : String) : List String :=
  (splitChar c s.data).map String.mk

/-- Removes leading and trailing whitespace from a character list. -/
def trimChars (l : List Char) : List Char :=
  ((l.dropWhile Char.isWhitespace).reverse.dropWhile Char.isWhitespace).reverse

/-- Model of the Python `str.strip()`. -/
def pyStrip (s : String) : String :=
  String.mk (trimChars s.data)

/-- Model of the Python `str.lower()` (ASCII letters, which is all the
service compares: the check is for the substring "csv"). -/
def pyLower (s : String) : String :=
  String.mk (s.data.map Char.toLower)

/-- Model of the Python substring test `needle in hay`. -/
def pySubstr (needle hay : String) : Bool :=
  (List.range (hay.data.length + 1)).any fun i => needle.data.isPrefixOf (hay.data.drop i)

/-- Model of the Python `str.zfill(width)`: left-pad with zeros up to `width`,
keeping a leading sign in place. -/
def pyZfill (width : ℕ) (s : String) : String :=
  if width ≤ s.length then s
  else
    match s.data with
    | '-' :: rest => String.mk ('-' :: List.replicate (width - s.length) '0' ++ rest)
    | '+' :: rest => String.mk ('+' :: List.replicate (width - s.length) '0' ++ rest)
    | l => String.mk (List.replicate (width - s.length) '0' ++ l)

/-! ## UTF-8 and MD5

Modelled from the spec (section 4.2): the dedup key applies MD5 to the
UTF-8 encoding of the joined field string and outputs its hex digest.
`hashlib` is a Python standard library, not repository code, so MD5 is
reproduced here in full (RFC 1321). -/

/-- UTF-8 encoding of one character as a byte list. -/
def utf8Char (c : Char) : List ℕ :=
  let n := c.toNat
  if n < 128 then [n]
  else if n < 2048 then [192 + n / 64, 128 + n % 64]
  else if n < 65536 then [224 + n / 4096, 128 + n / 64 % 64, 128 + n % 64]
  else [240 + n / 262144, 128 + n / 4096 % 64, 128 + n / 64 % 64, 128 + n % 64]

/-- Model of the Python `s.encode()`: the UTF-8 bytes of a string. -/
def strBytes (s : String) : List ℕ :=
  s.data.flatMap utf8Char

/-- Truncation to a 32-bit word. -/
def w32 (x : ℕ) : ℕ := x % 4294967296

/-- Bitwise complement on 32-bit words. -/
def w32not (x : ℕ) : ℕ := Nat.xor x 4294967295

/-- Left rotation of a 32-bit word. -/
def rotl32 (x s : ℕ) : ℕ :=
  Nat.lor (w32 (x <<< s)) (x >>> (32 - s))

/-- The MD5 sine-derived round constants (RFC 1321). -/
def md5K : List ℕ :=
  [0xd76aa478, 0xe8c7b756, 0x242070db, 0xc1bdceee, 0xf57c0faf, 0x4787c62a, 0xa8304613, 0xfd469501,
   0x698098d8, 0x8b44f7af, 0xffff5bb1, 0x895cd7be, 0x6b901122, 0xfd987193, 0xa679438e, 0x49b40821,
   0xf61e2562, 0xc040b340, 0x265e5a51, 0xe9b6c7aa, 0xd62f105d, 0x02441453, 0xd8a1e681, 0xe7d3fbc8,
   0x21e1cde6, 0xc33707d6, 0xf4d50d87, 0x455a14ed, 0xa9e3e905, 0xfcefa3f8, 0x676f02d9, 0x8d2a4c8a,
   0xfffa3942, 0x8771f681, 0x6d9d6122, 0xfde5380c, 0xa4beea44, 0x4bdecfa9, 0xf6bb4b60, 0xbebfbc70,
   0x289b7ec6, 0xeaa127fa, 0xd4ef3085, 0x04881d05, 0xd9d4d039, 0xe6db99e5, 0x1fa27cf8, 0xc4ac5665,
   0xf4292244, 0x432aff97, 0xab9423a7, 0xfc93a039, 0x655b59c3, 0x8f0ccc92, 0xffeff47d, 0x85845dd1,
   0x6fa87e4f, 0xfe2ce6e0, 0xa3014314, 0x4e0811a1, 0xf7537e82, 0xbd3af235, 0x2ad7d2bb, 0xeb86d391]

/-- The MD5 per-round left-rotation amounts (RFC 1321). -/
def md5S : List ℕ :=
  [7, 12, 17, 22, 7, 12, 17, 22, 7, 12, 17, 22, 7, 12, 17, 22,
   5, 9, 14, 20, 5, 9, 14, 20, 5, 9, 14, 20, 5, 9, 14, 20,
   4, 11, 16, 23, 4, 11, 16, 23, 4, 11, 16, 23, 4, 11, 16, 23,
   6, 10, 15, 21, 6, 10, 15, 21, 6, 10, 15, 21, 6, 10, 15, 21]

/-- One of the 64 MD5 rounds, acting on the state `(a, b, c, d)`. -/
def md5Step (M : List ℕ) (st : ℕ × ℕ × ℕ × ℕ) (i : ℕ) : ℕ × ℕ × ℕ × ℕ :=
  let a := st.1
  let b := st.2.1
  let c := st.2.2.1
  let d := st.2.2.2
  let f :=
    if i < 16 then Nat.lor (Nat.land b c) (Nat.land (w32not b) d)
    else if i < 32 then Nat.lor (Nat.land d b) (Nat.land (w32not d) c)
    else if i < 48 then Nat.xor b (Nat.xor c d)
    else Nat.xor c (Nat.lor b (w32not d))
  let g :=
    if i < 16 then i
    else if i < 32 then (5 * i + 1) % 16
    else if i < 48 then (3 * i + 5) % 16
    else 7 * i % 16
  let tmp := w32 (f + a + md5K.getD i 0 + M.getD g 0)
  (d, w32 (b + rotl32 tmp (md5S.getD i 0)), b, c)

/-- Processing of one 16-word block of the padded MD5 message. -/
def md5Block (st : ℕ × ℕ × ℕ × ℕ) (M : List ℕ) : ℕ × ℕ × ℕ × ℕ :=
  let r := (List.range 64).foldl (md5Step M) st
  (w32 (st.1 + r.1), w32 (st.2.1 + r.2.1), w32 (st.2.2.1 + r.2.2.1), w32 (st.2.2.2 + r.2.2.2))

/-- Little-endian byte rendering of a number, `count` bytes long. -/
def leBytes (count n : ℕ) : List ℕ :=
  (List.range count).map fun i => n >>> (8 * i) % 256

/-- MD5 padding: a 1-bit, zeros up to 56 mod 64 bytes, then the bit length
as a 64-bit little-endian number. -/
def md5Pad (msg : List ℕ) : List ℕ :=
  msg ++ 128 :: List.replicate ((119 - msg.length % 64) % 64) 0 ++ leBytes 8 (8 * msg.length)

/-- Packing of a 64-byte block into 16 little-endian 32-bit words. -/
def bytesToWords (block : List ℕ) : List ℕ :=
  (List.range 16).map fun j =>
    block.getD (4 * j) 0 + 256 * block.getD (4 * j + 1) 0 + 65536 * block.getD (4 * j + 2) 0 +
      16777216 * block.getD (4 * j + 3) 0

/-- Division of a byte list into 64-byte blocks (first argument is fuel). -/
def md5Chunks : ℕ → List ℕ → List (List ℕ)
  | 0, _ => []
  | _, [] => []
  | fuel + 1, l => l.take 64 :: md5Chunks fuel (l.drop 64)

/-- Lowercase hex rendering of one byte. -/
def byteHexChars (b : ℕ) : List Char :=
  [Nat.digitChar (b / 16), Nat.digitChar (b % 16)]

/-- MD5 of a byte list as a lowercase 32-character hex string
(the Python `hashlib.md5(bytes).hexdigest()`). -/
def md5Hex (msg : List ℕ) : String :=
  let padded := md5Pad msg
  let st := (md5Chunks padded.length padded).foldl (fun st blk => md5Block st (bytesToWords blk))
    (0x67452301, 0xefcdab89, 0x98badcfe, 0x10325476)
  String.mk
    (((leBytes 4 st.1 ++ leBytes 4 st.2.1 ++ leBytes 4 st.2.2.1 ++ leBytes 4 st.2.2.2).map
      byteHexChars).flatten)

/-! ## Python float values and their decimal text form -/

/-- Number of times `p` divides `n` (first argument is fuel). -/
def padicCountFuel : ℕ → ℕ → ℕ → ℕ
  | 0, _, _ => 0
  | fuel + 1, p, n => if 1 < p ∧ 0 < n ∧ n % p = 0 then padicCountFuel fuel p (n / p) + 1 else 0

/-- Number of times `p` divides `n`. -/
def padicCount (p n : ℕ) : ℕ :=
  padicCountFuel n p n

/-- Number of fractional decimal digits `str` prints for the value `q`:
the least `k ≥ 1` with `q * 10 ^ k` integral, when the denominator divides
a power of ten. -/
def decScale (q : ℚ) : ℕ :=
  max 1 (max (padicCount 2 q.den) (padicCount 5 q.den))

/-- Little-endian base-10 digits of `n` (first argument is fuel);
`[]` for `0`. -/
def natDigitsAux : ℕ → ℕ → List ℕ
  | 0, _ => []
  | fuel + 1, n => if n = 0 then [] else n % 10 :: natDigitsAux fuel (n / 10)

/-- Little-endian base-10 digits of `n`; `[]` for `0`. -/
def natDigits10 (n : ℕ) : List ℕ :=
  natDigitsAux n n

/-- Decimal digit characters of `n`, most significant first; `[]` for `0`. -/
def decDigits (n : ℕ) : List Char :=
  (natDigits10 n).reverse.map Nat.digitChar

/-- Decimal digit characters of `n`, most significant first; `"0"` for `0`. -/
def natChars (n : ℕ) : List Char :=
  if n = 0 then ['0'] else decDigits n

/-- Left zero-padding of a digit character list to length `k`. -/
def zeroPad (k : ℕ) (l : List Char) : List Char :=
  List.replicate (k - l.length) '0' ++ l

/-- Model of the Python float-to-text rendering `str(x)` (equivalently the
f-string interpolation of a float) for decimal values in the
non-scientific range: sign, integer part, dot, then the fractional digits,
at least one and without trailing zeros.  Examples: `str(2.0) = "2.0"`,
`str(12.5) = "12.5"`, `str(-5.25) = "-5.25"`, `str(1.05) = "1.05"`. -/
def formatRat (q : ℚ) : String :=
  let k := decScale q
  let scaled := q.num.natAbs * 10 ^ k / q.den
  String.mk ((if q.num < 0 then ['-'] else []) ++
    natChars (scaled / 10 ^ k) ++ '.' :: zeroPad k (decDigits (scaled % 10 ^ k)))

/-- A Python float value: an exact decimal rational, or the NaN produced by
pandas for an empty cell.  (Infinities do not arise in this pipeline.) -/
inductive PyNum where
  | fin (q : ℚ)
  | nan
deriving DecidableEq

/-- Text rendering of a `PyNum` as Python `str` produces it. -/
def pyNumRepr : PyNum → String
  | .fin q => formatRat q
  | .nan => "nan"

/-! ## The dedup key generator (server.py lines 108-111) -/

/-- The string that `generate_hash` feeds to MD5:
`f"{date}|{description}|{amount}|{currency}"`. -/
def hashInput (date description : String) (amount : PyNum) (currency : String) : String :=
  date ++ "|" ++ description ++ "|" ++ pyNumRepr amount ++ "|" ++ currency

/-- Embedding of `generate_hash` (server.py lines 108-111). -/
def generate_hash (date description : String) (amount : PyNum) (currency : String) : String :=
  md5Hex (strBytes (hashInput date description amount currency))

/-! ## The date normalizer (server.py lines 85-106) -/

/-- Embedding of `normalize_date` (server.py lines 85-106).  `duParse` stands
for the external `dateutil` parser composed with `strftime("%Y-%m-%d")`;
`none` means that parser raises.  The error value carries the message of the
`ValueError` raised by the source. -/
def normalize_date (duParse : String → Option String) (date_str : String) :
    Except String String :=
  let fallback : Except String String :=
    match duParse date_str with
    | some r => .ok r
    | none => .error ("Invalid date format: " ++ date_str)
  if charMem '/' date_str then
    match pySplit '/' date_str with
    | [day, month, year] =>
      if year.length = 4 then
        .ok (year ++ "-" ++ pyZfill 2 month ++ "-" ++ pyZfill 2 day)
      else fallback
    | _ => fallback
  else if charMem '-' date_str then fallback
  else fallback

/-- Modelled from the spec: the repository calls the external general-purpose
flexible date parser (`dateutil.parser.parse`, not repository code) followed
by `strftime("%Y-%m-%d")`.  This model accepts canonical `YYYY-MM-DD` input,
returning it unchanged, and rejects everything else; concrete witnesses use
it to instantiate the `duParse` parameter. -/
def isoParse (s : String) : Option String :=
  match splitChar '-' s.data with
  | [y, m, d] =>
    if y.length = 4 ∧ m.length = 2 ∧ d.length = 2 ∧
        y.all Char.isDigit ∧ m.all Char.isDigit ∧ d.all Char.isDigit then
      some (String.mk (y ++ '-' :: m ++ '-' :: d))
    else none
  | _ => none

/-! ## The CSV validator (server.py lines 113-123) -/

/-- Embedding of `validate_csv_content` (server.py lines 113-123), taking the
parsed column header list of the data frame. -/
def validate_csv_content (columns : List String) : List String :=
  let missing := ["date", "description", "amount"].filter fun c => !(columns.contains c)
  if missing = [] then [] else ["Missing required columns: " ++ String.intercalate ", " missing]

/-! ## The ingestion pipeline (server.py lines 131-211) -/

/-- A parsed CSV cell as pandas presents it: a string, a number, or the NaN
that pandas substitutes for an empty cell. -/
inductive Cell where
  | str (s : String)
  | num (q : ℚ)
  | nan
deriving DecidableEq

/-- Model of the Python `str(cell)`. -/
def pyStr : Cell → String
  | .str s => s
  | .num q => formatRat q
  | .nan => "nan"

/-- Model of `pd.notna`. -/
def pdNotna : Cell → Bool
  | .nan => false
  | _ => true

/-- Digit test for a whole character list. -/
def allDigits (l : List Char) : Bool :=
  l.all Char.isDigit

/-- Value of a big-endian decimal digit character list. -/
def digitsToNat (l : List Char) : ℕ :=
  l.foldl (fun a c => a * 10 + (c.toNat - 48)) 0

/-- Model of the Python `float(str)` conversion on the numeral forms that
occur in CSV cells: optional sign, digits with at most one dot
(exponent and inf forms are not modelled).  `none` means `float` raises. -/
def pyParseFloat (s : String) : Option ℚ :=
  let t := trimChars s.data
  let sgn : ℤ := match t with
    | '-' :: _ => -1
    | _ => 1
  let body := match t with
    | '-' :: r => r
    | '+' :: r => r
    | r => r
  match splitChar '.' body with
  | [a] => if a ≠ [] ∧ allDigits a then some (mkRat (sgn * (digitsToNat a : ℤ)) 1) else none
  | [a, b] =>
    if (a ++ b) ≠ [] ∧ allDigits a ∧ allDigits b then
      some (mkRat (sgn * ((digitsToNat a * 10 ^ b.length + digitsToNat b : ℕ) : ℤ)) (10 ^ b.length))
    else none
  | _ => none

/-- Model of the Python `float(cell)`: numbers pass through, NaN stays NaN
(`float(nan)` does not raise), and strings are parsed or raise `ValueError`. -/
def pyFloat : Cell → Except String PyNum
  | .num q => .ok (.fin q)
  | .nan => .ok .nan
  | .str s =>
    match pyParseFloat s with
    | some q => .ok (.fin q)
    | none => .error ("could not convert string to float: " ++ s)

/-- A parsed data frame: the header column names, and the rows with cells in
column order (`pd.read_csv` gives every row every column, NaN when absent). -/
structure Csv where
  columns : List String
  rows : List (List Cell)

/-- Cell of a row under a column name: `none` when the data frame has no such
column (the `row.get(name)` default case), NaN when the row is ragged. -/
def getCell (cols : List String) (row : List Cell) (c : String) : Option Cell :=
  match cols.findIdx? (fun x => x == c) with
  | some i => some ((row.get? i).getD Cell.nan)
  | none => none

/-- The persisted transaction record (server.py `Transaction`).  The
generated `id` (uuid4) and `created_at` (ingestion timestamp) play no role
in any claim and are left out of the deterministic model. -/
structure Transaction where
  date : String
  description : String
  amount : PyNum
  currency : String
  balance : Option PyNum
  hash_key : String
deriving DecidableEq

/-- Embedding of the per-row body of the ingestion loop (server.py lines
163-191 up to the constructed record): field extraction, currency
defaulting, date normalization and hash computation, with the first raised
error short-circuiting as the row error. -/
def processRow (duParse : String → Option String) (cols : List String) (row : List Cell) :
    Except String Transaction := do
  let date_str := pyStrip (pyStr ((getCell cols row "date").getD Cell.nan))
  let description := pyStrip (pyStr ((getCell cols row "description").getD Cell.nan))
  let amount ← pyFloat ((getCell cols row "amount").getD Cell.nan)
  let currency0 := pyStrip (pyStr ((getCell cols row "currency").getD (Cell.str "USD")))
  let currency := if currency0 = "" then "USD" else currency0
  let balance ← match getCell cols row "balance" with
    | some cell =>
      if pdNotna cell then do
        let b ← pyFloat cell
        pure (some b)
      else pure (none : Option PyNum)
    | none => pure (none : Option PyNum)
  let normalized_date ← normalize_date duParse date_str
  pure { date := normalized_date, description := description, amount := amount,
         currency := currency, balance := balance,
         hash_key := generate_hash normalized_date description amount currency }

/-- The mutable state of the ingestion loop: the two counters, the collected
row errors, and the store (the `transactions` collection). -/
structure IngestState where
  imported : ℕ
  skipped : ℕ
  row_errors : List String
  store : List Transaction
deriving DecidableEq

/-- Embedding of the `for index, row in df.iterrows()` loop (server.py lines
162-198): each row is imported, skipped, or recorded as a
`"Row N: reason"` error, and the loop always continues with the next row. -/
def processRows (duParse : String → Option String) (cols : List String) :
    List (List Cell) → ℕ → IngestState → IngestState
  | [], _, st => st
  | row :: rest, idx, st =>
    match processRow duParse cols row with
    | .error e =>
      processRows duParse cols rest (idx + 1)
        { st with row_errors := st.row_errors ++ ["Row " ++ toString (idx + 2) ++ ": " ++ e] }
    | .ok txn =>
      if (st.store.find? fun t => t.hash_key == txn.hash_key).isSome then
        processRows duParse cols rest (idx + 1) { st with skipped := st.skipped + 1 }
      else
        processRows duParse cols rest (idx + 1)
          { st with imported := st.imported + 1, store := st.store ++ [txn] }

/-- The failure responses of the upload endpoint: HTTP 415, 413 and 422 with
its error list. -/
inductive UploadError where
  | unsupportedMediaType
  | payloadTooLarge
  | unprocessable (errors : List String)
deriving DecidableEq

/-- Embedding of the content-type precondition (server.py line 141):
`not file.content_type or "csv" not in file.content_type.lower()` rejects. -/
def contentTypeOk : Option String → Bool
  | none => false
  | some ct => pySubstr "csv" (pyLower ct)

/-- Embedding of the size precondition (server.py line 145):
`file.size and file.size > 10 * 1024 * 1024` rejects (an unknown size is
falsy and passes). -/
def sizeExceeds : Option ℕ → Bool
  | none => false
  | some n => decide (10 * 1024 * 1024 < n)

/-- Embedding of `upload_transactions_csv` (server.py lines 131-211) from the
point where the CSV text has been parsed into a data frame.  Returns the
response (success counters or failure) together with the store after the
call — the store is returned even on failure because row-level inserts are
not rolled back. -/
def upload_transactions_csv (duParse : String → Option String) (contentType : Option String)
    (size : Option ℕ) (csv : Csv) (store : List Transaction) :
    Except UploadError (ℕ × ℕ) × List Transaction :=
  if !(contentTypeOk contentType) then (.error .unsupportedMediaType, store)
  else if sizeExceeds size then (.error .payloadTooLarge, store)
  else
    let validation_errors := validate_csv_content csv.columns
    if validation_errors ≠ [] then (.error (.unprocessable validation_errors), store)
    else
      let final := processRows duParse csv.columns csv.rows 0 ⟨0, 0, [], store⟩
      if final.row_errors ≠ [] then (.error (.unprocessable final.row_errors), final.store)
      else (.ok (final.imported, final.skipped), final.store)

/-! ## The query service (server.py lines 213-267) -/

/-- Python truthiness of an optional query string: absent and empty are falsy. -/
def optGiven : Option String → Bool
  | none => false
  | some s => !(s == "")

/-- The Mongo query filter built by `get_transactions` (server.py lines
224-237), as a predicate on stored records: the default last-30-days window
when neither bound is truthy, else the `$gte` / `$lte` bounds for whichever
are truthy, under lexicographic string comparison. -/
def txMatches (thirty_days_ago : String) (from_date to_date : Option String)
    (t : Transaction) : Bool :=
  if !(optGiven from_date) && !(optGiven to_date) then decide (thirty_days_ago ≤ t.date)
  else
    (match from_date with
     | some f => if f == "" then true else decide (f ≤ t.date)
     | none => true) &&
    (match to_date with
     | some u => if u == "" then true else decide (t.date ≤ u)
     | none => true)

/-- The response shape of the transactions listing. -/
structure TxPage where
  data : List Transaction
  page : ℕ
  limit : ℕ
  total : ℕ

/-- Embedding of `get_transactions` (server.py lines 213-267).
`thirty_days_ago` is the `(now(utc) - 30 days)` date string the handler
computes at request time.  The count runs on the filter, the records are
sorted by date descending (ties in store order), and pagination drops
`(page - 1) * limit` records and returns at most `limit`. -/
def get_transactions (thirty_days_ago : String) (from_date to_date : Option String)
    (page limit : ℕ) (store : List Transaction) : TxPage :=
  let matched := store.filter (txMatches thirty_days_ago from_date to_date)
  let total := matched.length
  let skip := (page - 1) * limit
  let sorted := matched.mergeSort fun a b => decide (b.date ≤ a.date)
  { data := (sorted.drop skip).take limit, page := page, limit := limit, total := total }

/-! ## Spec-side definitions used by refinement statements -/

/-- Stated from the spec, for comparison with the pipeline: the collected row
errors are exactly one `"Row N: reason"` string per failing row, where `N`
is the 0-based row position plus 2. -/
def specRowErrors (duParse : String → Option String) (cols : List String)
    (rows : List (List Cell)) : List String :=
  (List.enumFrom 0 rows).filterMap fun p =>
    match processRow duParse cols p.2 with
    | .error e => some ("Row " ++ toString (p.1 + 2) ++ ": " ++ e)
    | .ok _ => none

/-- Stated from the spec, for comparison with the query filter: records with
`date ≥ today - 30d` when neither bound is given, else the inclusive range
of whichever bounds are given. -/
def specMatches (thirty_days_ago : String) (from_date to_date : Option String)
    (t : Transaction) : Prop :=
  if optGiven from_date = false ∧ optGiven to_date = false then thirty_days_ago ≤ t.date
  else
    (∀ f, from_date = some f → f ≠ "" → f ≤ t.date) ∧
    (∀ u, to_date = some u → u ≠ "" → t.date ≤ u)

/-- Success test for a row result. -/
def exceptOk {ε α : Type} : Except ε α → Bool
  | .ok _ => true
  | .error _ => false

/-- Decidable equality of request results, used to evaluate concrete
witnesses by kernel reduction. -/
instance exceptDecEq {ε α : Type} [DecidableEq ε] [DecidableEq α] :
    DecidableEq (Except ε α) := fun x y =>
  match x, y with
  | .ok a, .ok b =>
    match decEq a b with
    | isTrue h => isTrue (by rw [h])
    | isFalse h => isFalse fun hc => h (Except.ok.inj hc)
  | .error a, .error b =>
    match decEq a b with
    | isTrue h => isTrue (by rw [h])
    | isFalse h => isFalse fun hc => h (Except.error.inj hc)
  | .ok _, .error _ => isFalse (by simp)
  | .error _, .ok _ => isFalse (by simp)

/-- The dedup keys of the rows that process successfully, in row order. -/
def rowKeys (duParse : String → Option String) (cols : List String)
    (rows : List (List Cell)) : List String :=
  rows.filterMap fun row => (processRow duParse cols row).toOption.map Transaction.hash_key

/-! ## Concrete inputs used by witnesses and counterexamples -/

/-- Concrete two-row CSV with valid rows and distinct fields. -/
def csvPair : Csv :=
  ⟨["date", "description", "amount"],
   [[.str "01/01/2024", .str "Coffee", .str "5.0"],
    [.str "02/01/2024", .str "Tea", .str "3.5"]]⟩

/-- Concrete CSV whose two rows have distinct normalized field tuples but the
same dedup pre-image `2024-01-01|a|1.0|2.0|USD`, because the second row
embeds the `|` separator in its currency while the first embeds it in its
description. -/
def csvInj : Csv :=
  ⟨["date", "description", "amount", "currency"],
   [[.str "01/01/2024", .str "a|1.0", .str "2.0", .str "USD"],
    [.str "01/01/2024", .str "a", .str "1.0", .str "2.0|USD"]]⟩

/-- Concrete CSV with one valid row and one row whose date parses nowhere. -/
def csvErr : Csv :=
  ⟨["date", "description", "amount"],
   [[.str "01/01/2024", .str "Coffee", .str "5.0"],
    [.str "nope", .str "Tea", .str "3.0"]]⟩

/-- Concrete CSV whose only row has an empty currency cell, which pandas
represents as the float NaN. -/
def csvNanCur : Csv :=
  ⟨["date", "description", "amount", "currency"],
   [[.str "01/01/2024", .str "Coffee", .str "5.0", .nan]]⟩

/-! ## Generic helper lemmas -/

/-- Splitting at a separator character is unambiguous when the text on the
left of the separator cannot contain it. -/
theorem sep_split_inj {P : Char → Prop} {sep : Char} (hsep : ¬ P sep) :
    ∀ (l1 l2 r1 r2 : List Char), (∀ c ∈ l1, P c) → (∀ c ∈ l2, P c) →
      l1 ++ sep :: r1 = l2 ++ sep :: r2 → l1 = l2 ∧ r1 = r2 := by
  intro l1
  induction l1 with
  | nil =>
    intro l2 r1 r2 _ h2 h
    cases l2 with
    | nil =>
      simp only [List.nil_append, List.cons.injEq] at h
      exact ⟨rfl, h.2⟩
    | cons c t =>
      simp only [List.nil_append, List.cons_append, List.cons.injEq] at h
      exact absurd (h.1.symm ▸ h2 c (by simp)) hsep
  | cons c t ih =>
    intro l2 r1 r2 h1 h2 h
    cases l2 with
    | nil =>
      simp only [List.nil_append, List.cons_append, List.cons.injEq] at h
      exact absurd (h.1 ▸ h1 c (by simp)) hsep
    | cons c2 t2 =>
      simp only [List.cons_append, List.cons.injEq] at h
      obtain ⟨he, ht⟩ := h
      obtain ⟨hl, hr⟩ := ih t2 r1 r2 (fun x hx => h1 x (by simp [hx]))
        (fun x hx => h2 x (by simp [hx])) ht
      exact ⟨by rw [he, hl], hr⟩

/-! ## Decimal digit lemmas -/

theorem natDigitsAux_eq (fuel : ℕ) : ∀ n : ℕ, n ≤ fuel → natDigitsAux fuel n = Nat.digits 10 n := by
  induction fuel with
  | zero =>
    intro n hn
    have : n = 0 := Nat.le_zero.mp hn
    subst this
    simp [natDigitsAux]
  | succ f ih =>
    intro n hn
    by_cases h0 : n = 0
    · subst h0; simp [natDigitsAux]
    · have hpos : 0 < n := Nat.pos_of_ne_zero h0
      have hdiv : n / 10 < n := Nat.div_lt_self hpos (by norm_num)
      rw [natDigitsAux, if_neg h0, ih (n / 10) (by omega),
        Nat.digits_def' (by norm_num : (1:ℕ) < 10) hpos]

theorem natDigits10_eq (n : ℕ) : natDigits10 n = Nat.digits 10 n :=
  natDigitsAux_eq n n le_rfl

theorem digitChar_isDigit : ∀ d, d < 10 → (Nat.digitChar d).isDigit = true := by decide

theorem digitChar_injOn : ∀ d1, d1 < 10 → ∀ d2, d2 < 10 →
    Nat.digitChar d1 = Nat.digitChar d2 → d1 = d2 := by decide

theorem digitChar_toNat : ∀ d, d < 10 → (Nat.digitChar d).toNat - 48 = d := by decide

theorem natDigits10_lt (n : ℕ) : ∀ d ∈ natDigits10 n, d < 10 := by
  rw [natDigits10_eq]
  exact fun d hd => Nat.digits_lt_base (by norm_num) hd

theorem decDigits_chars (n : ℕ) : ∀ c ∈ decDigits n, c.isDigit = true := by
  intro c hc
  simp only [decDigits, List.mem_map, List.mem_reverse] at hc
  obtain ⟨d, hd, rfl⟩ := hc
  exact digitChar_isDigit d (natDigits10_lt n d hd)

theorem natChars_chars (n : ℕ) : ∀ c ∈ natChars n, c.isDigit = true := by
  intro c hc
  by_cases h : n = 0
  · subst h
    simp only [natChars, if_true, List.mem_singleton] at hc
    rw [hc]
    decide
  · rw [natChars, if_neg h] at hc
    exact decDigits_chars n c hc

theorem natChars_ne_nil (n : ℕ) : natChars n ≠ [] := by
  by_cases h : n = 0
  · subst h; simp [natChars]
  · rw [natChars, if_neg h]
    simp only [decDigits, ne_eq, List.map_eq_nil_iff, List.reverse_eq_nil_iff, natDigits10_eq]
    exact Nat.digits_ne_nil_iff_ne_zero.mpr h

theorem digitsToNat_rev_map (l : List ℕ) (a : ℕ) (h : ∀ d ∈ l, d < 10) :
    List.foldl (fun x c => x * 10 + (c.toNat - 48)) a ((l.map Nat.digitChar).reverse) =
      a * 10 ^ l.length + Nat.ofDigits 10 l := by
  induction l generalizing a with
  | nil => simp
  | cons d t ih =>
    simp only [List.map_cons, List.reverse_cons, List.foldl_append, List.foldl_cons,
      List.foldl_nil]
    rw [ih a (fun x hx => h x (by simp [hx])), digitChar_toNat d (h d (by simp)),
      Nat.ofDigits_cons]
    simp only [List.length_cons, pow_succ]
    ring

theorem digitsToNat_decDigits (n : ℕ) : digitsToNat (decDigits n) = n := by
  have hrw : decDigits n = ((natDigits10 n).map Nat.digitChar).reverse := by
    rw [decDigits, List.map_reverse]
  rw [digitsToNat, hrw, digitsToNat_rev_map (natDigits10 n) 0 (natDigits10_lt n)]
  simp [natDigits10_eq, Nat.ofDigits_digits]

theorem digitsToNat_natChars (n : ℕ) : digitsToNat (natChars n) = n := by
  by_cases h : n = 0
  · subst h; rfl
  · rw [natChars, if_neg h]
    exact digitsToNat_decDigits n

theorem natChars_inj {n1 n2 : ℕ} (h : natChars n1 = natChars n2) : n1 = n2 := by
  have := congrArg digitsToNat h
  rwa [digitsToNat_natChars, digitsToNat_natChars] at this

theorem digitsToNat_replicate_zero (m : ℕ) :
    List.foldl (fun x c => x * 10 + (c.toNat - 48)) 0 (List.replicate m '0') = 0 := by
  induction m with
  | zero => rfl
  | succ k ih => rw [List.replicate_succ, List.foldl_cons]; simpa using ih

theorem digitsToNat_zeroPad (k : ℕ) (l : List Char) :
    digitsToNat (zeroPad k l) = digitsToNat l := by
  rw [zeroPad, digitsToNat, digitsToNat, List.foldl_append, digitsToNat_replicate_zero]

theorem decDigits_len_le {n k : ℕ} (h : n < 10 ^ k) : (decDigits n).length ≤ k := by
  by_cases h0 : n = 0
  · subst h0; simp [decDigits, natDigits10_eq]
  · have hlen : (decDigits n).length = (Nat.digits 10 n).length := by
      simp [decDigits, natDigits10_eq]
    rw [hlen, Nat.digits_len 10 n (by norm_num) h0]
    have := Nat.log_lt_of_lt_pow h0 h
    omega

theorem zeroPad_length {k : ℕ} {l : List Char} (h : l.length ≤ k) :
    (zeroPad k l).length = k := by
  simp only [zeroPad, List.length_append, List.length_replicate]
  omega

theorem zeroPad_chars (k : ℕ) (l : List Char) (h : ∀ c ∈ l, c.isDigit = true) :
    ∀ c ∈ zeroPad k l, c.isDigit = true := by
  intro c hc
  rcases List.mem_append.mp hc with h0 | h0
  · rw [List.eq_of_mem_replicate h0]; decide
  · exact h c h0

/-! ## Injectivity of the amount rendering -/

theorem formatRat_data (q : ℚ) : (formatRat q).data =
    (if q.num < 0 then ['-'] else []) ++
      natChars (q.num.natAbs * 10 ^ decScale q / q.den / 10 ^ decScale q) ++
      '.' :: zeroPad (decScale q)
        (decDigits (q.num.natAbs * 10 ^ decScale q / q.den % 10 ^ decScale q)) := rfl

theorem formatRat_chars (q : ℚ) : ∀ c ∈ (formatRat q).data, c ≠ '|' := by
  intro c hc
  rw [formatRat_data] at hc
  rcases List.mem_append.mp hc with h0 | h0
  · rcases List.mem_append.mp h0 with h1 | h1
    · intro he
      by_cases hn : q.num < 0
      · rw [if_pos hn] at h1
        simp only [List.mem_singleton] at h1
        rw [he] at h1
        exact absurd h1 (by decide)
      · rw [if_neg hn] at h1
        simp at h1
    · intro he
      have := natChars_chars _ c h1
      rw [he] at this
      exact absurd this (by decide)
  · rcases List.mem_cons.mp h0 with h1 | h1
    · intro he
      rw [he] at h1
      exact absurd h1.symm (by decide)
    · intro he
      have := zeroPad_chars _ _ (decDigits_chars _) c h1
      rw [he] at this
      exact absurd this (by decide)

/-- The decimal rendering of Python floats is injective: two decimal values
with the same `str` form are the same value.  The divisibility hypotheses say
the values have finite decimal expansions at their computed scales, which is
the case for every value the pipeline produces. -/
theorem formatRat_inj {q1 q2 : ℚ} (h1 : 10 ^ decScale q1 % q1.den = 0)
    (h2 : 10 ^ decScale q2 % q2.den = 0) (h : formatRat q1 = formatRat q2) : q1 = q2 := by
  have hdata := congrArg String.data h
  rw [formatRat_data, formatRat_data] at hdata
  have hsign : (q1.num < 0 ↔ q2.num < 0) ∧
      natChars (q1.num.natAbs * 10 ^ decScale q1 / q1.den / 10 ^ decScale q1) ++
        '.' :: zeroPad (decScale q1)
          (decDigits (q1.num.natAbs * 10 ^ decScale q1 / q1.den % 10 ^ decScale q1)) =
      natChars (q2.num.natAbs * 10 ^ decScale q2 / q2.den / 10 ^ decScale q2) ++
        '.' :: zeroPad (decScale q2)
          (decDigits (q2.num.natAbs * 10 ^ decScale q2 / q2.den % 10 ^ decScale q2)) := by
    by_cases hn1 : q1.num < 0 <;> by_cases hn2 : q2.num < 0
    · rw [if_pos hn1, if_pos hn2] at hdata
      simp only [List.singleton_append, List.cons_append, List.cons.injEq] at hdata
      refine ⟨iff_of_true hn1 hn2, ?_⟩
      simpa using hdata.2
    · exfalso
      rw [if_pos hn1, if_neg hn2] at hdata
      obtain ⟨c, t, hct⟩ := List.exists_cons_of_ne_nil
        (natChars_ne_nil (q2.num.natAbs * 10 ^ decScale q2 / q2.den / 10 ^ decScale q2))
      rw [hct] at hdata
      simp only [List.nil_append, List.singleton_append, List.cons_append,
        List.cons.injEq] at hdata
      have hd : c.isDigit = true := natChars_chars _ c (by rw [hct]; exact List.mem_cons_self c t)
      rw [← hdata.1] at hd
      exact absurd hd (by decide)
    · exfalso
      rw [if_neg hn1, if_pos hn2] at hdata
      obtain ⟨c, t, hct⟩ := List.exists_cons_of_ne_nil
        (natChars_ne_nil (q1.num.natAbs * 10 ^ decScale q1 / q1.den / 10 ^ decScale q1))
      rw [hct] at hdata
      simp only [List.nil_append, List.singleton_append, List.cons_append,
        List.cons.injEq] at hdata
      have hd : c.isDigit = true := natChars_chars _ c (by rw [hct]; exact List.mem_cons_self c t)
      rw [hdata.1] at hd
      exact absurd hd (by decide)
    · rw [if_neg hn1, if_neg hn2] at hdata
      refine ⟨iff_of_false hn1 hn2, ?_⟩
      simpa using hdata
  obtain ⟨hiff, hmid⟩ := hsign
  obtain ⟨hI, hZ⟩ := sep_split_inj (by decide : ¬ (('.' : Char).isDigit = true)) _ _ _ _
    (natChars_chars _) (natChars_chars _) hmid
  have hIeq := natChars_inj hI
  have hp : (0:ℕ) < 10 ^ decScale q1 := Nat.pos_pow_of_pos _ (by norm_num)
  have hp2 : (0:ℕ) < 10 ^ decScale q2 := Nat.pos_pow_of_pos _ (by norm_num)
  have hf1 : q1.num.natAbs * 10 ^ decScale q1 / q1.den % 10 ^ decScale q1 < 10 ^ decScale q1 :=
    Nat.mod_lt _ hp
  have hf2 : q2.num.natAbs * 10 ^ decScale q2 / q2.den % 10 ^ decScale q2 < 10 ^ decScale q2 :=
    Nat.mod_lt _ hp2
  have hlen := congrArg List.length hZ
  rw [zeroPad_length (decDigits_len_le hf1), zeroPad_length (decDigits_len_le hf2)] at hlen
  have hFeq := congrArg digitsToNat hZ
  rw [digitsToNat_zeroPad, digitsToNat_zeroPad, digitsToNat_decDigits,
    digitsToNat_decDigits] at hFeq
  rw [← hlen] at hIeq hFeq
  have e1 := Nat.div_add_mod (q1.num.natAbs * 10 ^ decScale q1 / q1.den) (10 ^ decScale q1)
  have e2 := Nat.div_add_mod (q2.num.natAbs * 10 ^ decScale q1 / q2.den) (10 ^ decScale q1)
  rw [← hlen] at h2
  have hNeq : q1.num.natAbs * 10 ^ decScale q1 / q1.den =
      q2.num.natAbs * 10 ^ decScale q1 / q2.den := by
    rw [← e1, ← e2, hIeq, hFeq]
  have hd1 : q1.den ∣ 10 ^ decScale q1 := Nat.dvd_of_mod_eq_zero h1
  have hd2 : q2.den ∣ 10 ^ decScale q1 := Nat.dvd_of_mod_eq_zero h2
  have hE1 : q1.num.natAbs * 10 ^ decScale q1 / q1.den * q1.den =
      q1.num.natAbs * 10 ^ decScale q1 := Nat.div_mul_cancel (hd1.mul_left _)
  have hE2 : q2.num.natAbs * 10 ^ decScale q1 / q2.den * q2.den =
      q2.num.natAbs * 10 ^ decScale q1 := Nat.div_mul_cancel (hd2.mul_left _)
  have hcross : q1.num.natAbs * q2.den = q2.num.natAbs * q1.den := by
    apply Nat.eq_of_mul_eq_mul_right hp
    calc q1.num.natAbs * q2.den * 10 ^ decScale q1
        = (q1.num.natAbs * 10 ^ decScale q1) * q2.den := by ring
      _ = (q1.num.natAbs * 10 ^ decScale q1 / q1.den * q1.den) * q2.den := by rw [hE1]
      _ = (q1.num.natAbs * 10 ^ decScale q1 / q1.den * q2.den) * q1.den := by ring
      _ = (q2.num.natAbs * 10 ^ decScale q1 / q2.den * q2.den) * q1.den := by rw [hNeq]
      _ = (q2.num.natAbs * 10 ^ decScale q1) * q1.den := by rw [hE2]
      _ = q2.num.natAbs * q1.den * 10 ^ decScale q1 := by ring
  have hc : (q1.num.natAbs : ℤ) * q2.den = (q2.num.natAbs : ℤ) * q1.den := by
    exact_mod_cast hcross
  have hint : q1.num * (q2.den : ℤ) = q2.num * (q1.den : ℤ) := by
    by_cases hn : q1.num < 0
    · have hn2 : q2.num < 0 := hiff.mp hn
      rw [Int.ofNat_natAbs_of_nonpos (le_of_lt hn),
        Int.ofNat_natAbs_of_nonpos (le_of_lt hn2)] at hc
      have : -(q1.num * q2.den) = -(q2.num * q1.den) := by
        rw [← neg_mul, ← neg_mul]; exact hc
      exact neg_inj.mp this
    · have hn2 : ¬ q2.num < 0 := fun hx => hn (hiff.mpr hx)
      rwa [Int.natAbs_of_nonneg (not_lt.mp hn), Int.natAbs_of_nonneg (not_lt.mp hn2)] at hc
  have dq1 : ((q1.den : ℚ)) ≠ 0 := Nat.cast_ne_zero.mpr q1.den_nz
  have dq2 : ((q2.den : ℚ)) ≠ 0 := Nat.cast_ne_zero.mpr q2.den_nz
  rw [← Rat.num_div_den q1, ← Rat.num_div_den q2, div_eq_div_iff dq1 dq2]
  exact_mod_cast hint

/-! ## Dedup pre-image injectivity -/

theorem hashInput_data (date x : String) (a : PyNum) (c : String) :
    (hashInput date x a c).data =
      date.data ++ '|' :: (x.data ++ '|' :: ((pyNumRepr a).data ++ '|' :: c.data)) := by
  simp [hashInput, String.data_append, List.append_assoc]

/-- Two field tuples whose hash pre-image strings agree are identical,
provided the date and description embed no `|` separator and the amounts are
finite decimals.  (The currency is the final field and needs no side
condition.) -/
theorem hashInput_inj {d1 x1 c1 d2 x2 c2 : String} {q1 q2 : ℚ}
    (hfd1 : '|' ∉ d1.data) (hfx1 : '|' ∉ x1.data)
    (hfd2 : '|' ∉ d2.data) (hfx2 : '|' ∉ x2.data)
    (hq1 : 10 ^ decScale q1 % q1.den = 0) (hq2 : 10 ^ decScale q2 % q2.den = 0)
    (h : hashInput d1 x1 (.fin q1) c1 = hashInput d2 x2 (.fin q2) c2) :
    d1 = d2 ∧ x1 = x2 ∧ q1 = q2 ∧ c1 = c2 := by
  have hdata := congrArg String.data h
  rw [hashInput_data, hashInput_data] at hdata
  have P : ∀ s : String, '|' ∉ s.data → ∀ ch ∈ s.data, ch ≠ '|' :=
    fun s hs ch hch he => hs (he ▸ hch)
  obtain ⟨e1, r1⟩ := @sep_split_inj (fun ch => ch ≠ '|') '|' (by simp) _ _ _ _
    (P d1 hfd1) (P d2 hfd2) hdata
  obtain ⟨e2, r2⟩ := @sep_split_inj (fun ch => ch ≠ '|') '|' (by simp) _ _ _ _
    (P x1 hfx1) (P x2 hfx2) r1
  obtain ⟨e3, r3⟩ := @sep_split_inj (fun ch => ch ≠ '|') '|' (by simp) _ _ _ _
    (formatRat_chars q1) (formatRat_chars q2) r2
  exact ⟨String.ext e1, String.ext e2, formatRat_inj hq1 hq2 (String.ext e3), String.ext r3⟩

/-! ## Ingestion loop lemmas -/

theorem enumFrom_cons_eq {α : Type} (n : ℕ) (x : α) (xs : List α) :
    List.enumFrom n (x :: xs) = (n, x) :: List.enumFrom (n + 1) xs := rfl

theorem processRows_errors (duParse : String → Option String) (cols : List String) :
    ∀ (rows : List (List Cell)) (idx : ℕ) (st : IngestState),
      (processRows duParse cols rows idx st).row_errors =
        st.row_errors ++ ((List.enumFrom idx rows).filterMap fun p =>
          match processRow duParse cols p.2 with
          | .error e => some ("Row " ++ toString (p.1 + 2) ++ ": " ++ e)
          | .ok _ => none) := by
  intro rows
  induction rows with
  | nil => intro idx st; simp [processRows]
  | cons row rest ih =>
    intro idx st
    cases hpr : processRow duParse cols row with
    | error e =>
      simp only [processRows, hpr, enumFrom_cons_eq, List.filterMap_cons, ih]
      simp [List.append_assoc]
    | ok txn =>
      by_cases hf : (st.store.find? fun t => t.hash_key == txn.hash_key).isSome = true
      · simp only [processRows, hpr, hf, if_true, enumFrom_cons_eq, List.filterMap_cons, ih]
      · simp only [processRows, hpr, Bool.not_eq_true] at hf ⊢
        simp only [hf, Bool.false_eq_true, if_false, enumFrom_cons_eq, List.filterMap_cons,
          hpr, ih]

theorem processRows_count (duParse : String → Option String) (cols : List String) :
    ∀ (rows : List (List Cell)) (idx : ℕ) (st : IngestState),
      (processRows duParse cols rows idx st).imported +
        (processRows duParse cols rows idx st).skipped +
        (processRows duParse cols rows idx st).row_errors.length =
      st.imported + st.skipped + st.row_errors.length + rows.length := by
  intro rows
  induction rows with
  | nil => intro idx st; simp [processRows]
  | cons row rest ih =>
    intro idx st
    cases hpr : processRow duParse cols row with
    | error e =>
      simp only [processRows, hpr]
      rw [ih]
      simp only [List.length_append, List.length_singleton, List.length_cons, List.length_nil]
      omega
    | ok txn =>
      by_cases hf : (st.store.find? fun t => t.hash_key == txn.hash_key).isSome = true
      · simp only [processRows, hpr, hf, if_true]
        rw [ih]
        simp only [List.length_cons]
        omega
      · simp only [processRows, hpr, Bool.not_eq_true] at hf ⊢
        simp only [hf, Bool.false_eq_true, if_false]
        rw [ih]
        simp only [List.length_cons]
        omega

theorem processRows_all_dup (duParse : String → Option String) (cols : List String) :
    ∀ (rows : List (List Cell)) (idx : ℕ) (st : IngestState),
      (∀ row ∈ rows, ∃ t, processRow duParse cols row = .ok t ∧
          t.hash_key ∈ st.store.map Transaction.hash_key) →
      processRows duParse cols rows idx st = { st with skipped := st.skipped + rows.length } := by
  intro rows
  induction rows with
  | nil => intro idx st _; simp [processRows]
  | cons row rest ih =>
    intro idx st h
    obtain ⟨t, hpr, hmem⟩ := h row (List.mem_cons_self row rest)
    have hf : (st.store.find? fun x => x.hash_key == t.hash_key).isSome = true := by
      rw [List.find?_isSome]
      obtain ⟨y, hy, hky⟩ := List.mem_map.mp hmem
      exact ⟨y, hy, by simp [hky]⟩
    simp only [processRows, hpr, hf, if_true]
    rw [ih (idx + 1) { st with skipped := st.skipped + 1 }
      (fun r hr => h r (List.mem_cons_of_mem row hr))]
    simp only [List.length_cons]
    congr 1
    omega

theorem processRows_all_new (duParse : String → Option String) (cols : List String) :
    ∀ (rows : List (List Cell)) (idx : ℕ) (st : IngestState),
      (∀ row ∈ rows, exceptOk (processRow duParse cols row) = true) →
      (rowKeys duParse cols rows).Nodup →
      (∀ k ∈ rowKeys duParse cols rows, k ∉ st.store.map Transaction.hash_key) →
      ∃ ts : List Transaction,
        processRows duParse cols rows idx st =
          { st with imported := st.imported + rows.length, store := st.store ++ ts } ∧
        ts.map Transaction.hash_key = rowKeys duParse cols rows := by
  intro rows
  induction rows with
  | nil =>
    intro idx st _ _ _
    exact ⟨[], by simp [processRows], by simp [rowKeys]⟩
  | cons row rest ih =>
    intro idx st hok hnd hdisj
    have h1 := hok row (List.mem_cons_self row rest)
    cases hpr : processRow duParse cols row with
    | error e => rw [hpr] at h1; simp [exceptOk] at h1
    | ok t =>
      have hkeys : rowKeys duParse cols (row :: rest) =
          t.hash_key :: rowKeys duParse cols rest := by
        simp [rowKeys, List.filterMap_cons, hpr, Except.toOption]
      have hmem : t.hash_key ∉ st.store.map Transaction.hash_key :=
        hdisj t.hash_key (by rw [hkeys]; exact List.mem_cons_self _ _)
      have hf : (st.store.find? fun x => x.hash_key == t.hash_key) = none := by
        rw [List.find?_eq_none]
        intro x hx hbeq
        exact hmem (List.mem_map.mpr ⟨x, hx, by simpa using hbeq⟩)
      rw [hkeys] at hnd hdisj
      have hnotin : t.hash_key ∉ rowKeys duParse cols rest := (List.nodup_cons.mp hnd).1
      obtain ⟨ts, hrec, hmap⟩ := ih (idx + 1)
        { st with imported := st.imported + 1, store := st.store ++ [t] }
        (fun r hr => hok r (List.mem_cons_of_mem row hr))
        (List.nodup_cons.mp hnd).2
        (by
          intro k hk
          simp only [List.map_append, List.map_cons, List.map_nil, List.mem_append,
            List.mem_singleton]
          rintro (hin | hin)
          · exact hdisj k (List.mem_cons_of_mem _ hk) hin
          · exact hnotin (hin ▸ hk))
      refine ⟨t :: ts, ?_, ?_⟩
      · simp only [processRows, hpr, hf, Option.isSome_none, Bool.false_eq_true, if_false]
        rw [hrec]
        simp only [List.length_cons, List.append_assoc, List.singleton_append]
        congr 1
        omega
      · rw [List.map_cons, hmap, hkeys]

theorem rowKeys_length (duParse : String → Option String) (cols : List String) :
    ∀ rows : List (List Cell), (∀ row ∈ rows, exceptOk (processRow duParse cols row) = true) →
      (rowKeys duParse cols rows).length = rows.length := by
  intro rows
  induction rows with
  | nil => intro _; rfl
  | cons row rest ih =>
    intro h
    have h1 := h row (List.mem_cons_self row rest)
    cases hpr : processRow duParse cols row with
    | error e => rw [hpr] at h1; simp [exceptOk] at h1
    | ok t =>
      have hstep : rowKeys duParse cols (row :: rest) =
          t.hash_key :: rowKeys duParse cols rest := by
        simp [rowKeys, List.filterMap_cons, hpr, Except.toOption]
      rw [hstep, List.length_cons, List.length_cons,
        ih fun r hr => h r (List.mem_cons_of_mem row hr)]

theorem upload_run (duParse : String → Option String) (contentType : Option String)
    (size : Option ℕ) (csv : Csv) (store : List Transaction)
    (hct : contentTypeOk contentType = true) (hsz : sizeExceeds size = false)
    (hval : validate_csv_content csv.columns = []) :
    upload_transactions_csv duParse contentType size csv store =
      (if (processRows duParse csv.columns csv.rows 0 ⟨0, 0, [], store⟩).row_errors = []
       then (.ok ((processRows duParse csv.columns csv.rows 0 ⟨0, 0, [], store⟩).imported,
                  (processRows duParse csv.columns csv.rows 0 ⟨0, 0, [], store⟩).skipped),
             (processRows duParse csv.columns csv.rows 0 ⟨0, 0, [], store⟩).store)
       else (.error (.unprocessable
               (processRows duParse csv.columns csv.rows 0 ⟨0, 0, [], store⟩).row_errors),
             (processRows duParse csv.columns csv.rows 0 ⟨0, 0, [], store⟩).store)) := by
  simp only [upload_transactions_csv, hct, hsz, hval, Bool.not_true, Bool.false_eq_true,
    if_false, ne_eq, not_true_eq_false, ite_not]

/-! ## Claim theorems -/

/-- C4: `normalize_date` maps `"31/01/2024"` to `"2024-01-31"`, returns
`"2024-01-31"` unchanged, and fails on `"not-a-date"` with an
`InvalidDateFormat` error whose message contains the raw input — for every
flexible parser that handles the ISO vector and rejects the garbage vector,
as `dateutil` does. -/
theorem c4_normalize_date_vectors (duParse : String → Option String)
    (h1 : duParse "2024-01-31" = some "2024-01-31")
    (h2 : duParse "not-a-date" = none) :
    normalize_date duParse "31/01/2024" = .ok "2024-01-31" ∧
    normalize_date duParse "2024-01-31" = .ok "2024-01-31" ∧
    normalize_date duParse "not-a-date" = .error "Invalid date format: not-a-date" ∧
    pySubstr "not-a-date" "Invalid date format: not-a-date" = true := by
  refine ⟨rfl, ?_, ?_, by decide⟩
  · have hc : normalize_date duParse "2024-01-31" =
        match duParse "2024-01-31" with
        | some r => .ok r
        | none => .error ("Invalid date format: " ++ "2024-01-31") := rfl
    rw [hc, h1]
  · have hc : normalize_date duParse "not-a-date" =
        match duParse "not-a-date" with
        | some r => .ok r
        | none => .error ("Invalid date format: " ++ "not-a-date") := rfl
    rw [hc, h2]
    rfl

/-- Witness for C4, instantiating the parser parameter with the concrete
ISO-date model. -/
theorem c4_witness :
    normalize_date isoParse "31/01/2024" = .ok "2024-01-31" ∧
    normalize_date isoParse "2024-01-31" = .ok "2024-01-31" ∧
    normalize_date isoParse "not-a-date" = .error "Invalid date format: not-a-date" ∧
    pySubstr "not-a-date" "Invalid date format: not-a-date" = true :=
  c4_normalize_date_vectors isoParse (by decide) (by decide)

/-- C10: any input with a `/` that splits into three parts whose third part
has four characters is reassembled as `part3-part2-part1` with zero-padding
and returned successfully, whatever the flexible parser does — the parts are
never checked to be numeric or to form a real calendar date. -/
theorem c10_slash_branch_unvalidated (duParse : String → Option String)
    (s day month year : String) (hc : charMem '/' s = true)
    (hp : pySplit '/' s = [day, month, year]) (hy : year.length = 4) :
    normalize_date duParse s = .ok (year ++ "-" ++ pyZfill 2 month ++ "-" ++ pyZfill 2 day) := by
  simp only [normalize_date, hc, hp, hy, if_true]

/-- Witness for C10 at the non-calendar input `"99/99/2024"`. -/
theorem c10_witness : normalize_date isoParse "99/99/2024" = .ok "2024-99-99" := by
  have h := c10_slash_branch_unvalidated isoParse "99/99/2024" "99" "99" "2024"
    (by decide) (by decide) (by decide)
  exact h.trans (congrArg Except.ok (by decide))

/-- C5: the dedup key is the MD5 hex digest of
`date|description|amount|currency` with the amount in its canonical decimal
text form, so the same numeric value always yields the same digest — in
particular 12.5 and 12.50 hash identically, and repeated calls agree because
the construction is a pure function of the four fields. -/
theorem c5_hash_construction (date description : String) (q : ℚ) (currency : String) :
    generate_hash date description (.fin q) currency =
      md5Hex (strBytes (date ++ "|" ++ description ++ "|" ++ formatRat q ++ "|" ++ currency)) ∧
    generate_hash date description (.fin 12.5) currency =
      generate_hash date description (.fin 12.50) currency := by
  refine ⟨rfl, ?_⟩
  have h : (12.5 : ℚ) = 12.50 := by norm_num
  rw [h]

/-- Counterexample for C6: two tuples that differ in description, amount and
currency but produce the same joined pre-image
`2024-01-01|a|1.0|2.0|USD`, hence the same digest, because the fields embed
the `|` separator. -/
theorem c6_counterexample :
    generate_hash "2024-01-01" "a|1.0" (.fin (mkRat 2 1)) "USD" =
      generate_hash "2024-01-01" "a" (.fin (mkRat 1 1)) "2.0|USD" ∧
    ("a|1.0", PyNum.fin (mkRat 2 1), "USD") ≠ ("a", PyNum.fin (mkRat 1 1), "2.0|USD") := by
  constructor
  · have h : hashInput "2024-01-01" "a|1.0" (.fin (mkRat 2 1)) "USD" =
        hashInput "2024-01-01" "a" (.fin (mkRat 1 1)) "2.0|USD" := by decide
    unfold generate_hash
    rw [h]
  · decide

/-- C6 (amended): tuples with identical fields hash identically because the
key is a pure function; and two tuples that differ in at least one field
produce different MD5 pre-image strings — hence different digests short of
an MD5 collision — provided date and description are free of the `|`
separator and the amounts are finite decimals (as every float is). -/
theorem c6_hash_separation (d1 x1 c1 d2 x2 c2 : String) (q1 q2 : ℚ)
    (hfd1 : '|' ∉ d1.data) (hfx1 : '|' ∉ x1.data)
    (hfd2 : '|' ∉ d2.data) (hfx2 : '|' ∉ x2.data)
    (hq1 : 10 ^ decScale q1 % q1.den = 0) (hq2 : 10 ^ decScale q2 % q2.den = 0)
    (hne : (d1, x1, q1, c1) ≠ (d2, x2, q2, c2)) :
    hashInput d1 x1 (.fin q1) c1 ≠ hashInput d2 x2 (.fin q2) c2 := by
  intro h
  obtain ⟨e1, e2, e3, e4⟩ := hashInput_inj hfd1 hfx1 hfd2 hfx2 hq1 hq2 h
  exact hne (by rw [e1, e2, e3, e4])

/-- Witness for C6 (amended) at two concrete tuples differing in the date. -/
theorem c6_witness :
    ("2024-01-01", "Coffee", mkRat 5 1, "USD") ≠ ("2024-01-02", "Coffee", mkRat 5 1, "USD") ∧
    hashInput "2024-01-01" "Coffee" (.fin (mkRat 5 1)) "USD" ≠
      hashInput "2024-01-02" "Coffee" (.fin (mkRat 5 1)) "USD" :=
  ⟨by decide,
   c6_hash_separation "2024-01-01" "Coffee" "USD" "2024-01-02" "Coffee" "USD"
     (mkRat 5 1) (mkRat 5 1) (by decide) (by decide) (by decide) (by decide)
     (by decide) (by decide) (by decide)⟩

/-- C7: the validator returns the empty list exactly when the case-sensitive
column names `date`, `description`, `amount` are all present, and otherwise
exactly one aggregated message naming the missing columns in that fixed
order. -/
theorem c7_validator (columns : List String) :
    (validate_csv_content columns = [] ↔
      columns.contains "date" = true ∧ columns.contains "description" = true ∧
        columns.contains "amount" = true) ∧
    (validate_csv_content columns ≠ [] →
      validate_csv_content columns = ["Missing required columns: " ++
        String.intercalate ", "
          (["date", "description", "amount"].filter fun c => !(columns.contains c))]) := by
  have hval : validate_csv_content columns =
      if (["date", "description", "amount"].filter fun c => !(columns.contains c)) = [] then []
      else ["Missing required columns: " ++ String.intercalate ", "
        (["date", "description", "amount"].filter fun c => !(columns.contains c))] := rfl
  have hm : (["date", "description", "amount"].filter fun c => !(columns.contains c)) = [] ↔
      (columns.contains "date" = true ∧ columns.contains "description" = true ∧
        columns.contains "amount" = true) := by
    rw [List.filter_eq_nil_iff]
    simp
  rw [hval]
  by_cases h : (["date", "description", "amount"].filter fun c => !(columns.contains c)) = []
  · rw [if_pos h]
    exact ⟨iff_of_true rfl (hm.mp h), fun hne => absurd rfl hne⟩
  · rw [if_neg h]
    exact ⟨iff_of_false (by simp) fun hall => h (hm.mpr hall), fun _ => rfl⟩

/-- Witness for C7: a table missing only the `amount` column yields exactly
the aggregated message naming it. -/
theorem c7_witness :
    validate_csv_content ["date", "description"] = ["Missing required columns: amount"] := by
  have h := (c7_validator ["date", "description"]).2 (by decide)
  exact h.trans (by decide)

/-- C3: an upload whose declared content type does not contain `csv`
(case-insensitively, absent included) fails with UnsupportedMediaType; one
whose known size exceeds 10 MiB fails with PayloadTooLarge; one whose parsed
table is missing a required column fails with UnprocessableContent carrying
the validator error list — and in all three cases the returned store is the
unchanged input store, no row having been processed. -/
theorem c3_structural_failures (duParse : String → Option String) (contentType : Option String)
    (size : Option ℕ) (csv : Csv) (store : List Transaction) :
    (contentTypeOk contentType = false →
      upload_transactions_csv duParse contentType size csv store =
        (.error .unsupportedMediaType, store)) ∧
    (contentTypeOk contentType = true → sizeExceeds size = true →
      upload_transactions_csv duParse contentType size csv store =
        (.error .payloadTooLarge, store)) ∧
    (contentTypeOk contentType = true → sizeExceeds size = false →
      validate_csv_content csv.columns ≠ [] →
      upload_transactions_csv duParse contentType size csv store =
        (.error (.unprocessable (validate_csv_content csv.columns)), store)) := by
  refine ⟨fun h1 => ?_, fun h1 h2 => ?_, fun h1 h2 h3 => ?_⟩
  · simp [upload_transactions_csv, h1]
  · simp [upload_transactions_csv, h1, h2]
  · simp [upload_transactions_csv, h1, h2, h3]

/-- Witness for C3 at three concrete uploads: a `text/plain` file, an
oversized file, and a table missing the `amount` column. -/
theorem c3_witness :
    upload_transactions_csv isoParse (some "text/plain") (some 10) csvPair [] =
      (.error .unsupportedMediaType, []) ∧
    upload_transactions_csv isoParse (some "text/csv") (some 20000000) csvPair [] =
      (.error .payloadTooLarge, []) ∧
    upload_transactions_csv isoParse (some "text/csv") (some 10)
        ⟨["date", "description"], []⟩ [] =
      (.error (.unprocessable ["Missing required columns: amount"]), []) := by
  refine ⟨(c3_structural_failures isoParse (some "text/plain") (some 10) csvPair []).1
    (by decide),
    (c3_structural_failures isoParse (some "text/csv") (some 20000000) csvPair []).2.1
      (by decide) (by decide), ?_⟩
  have h := (c3_structural_failures isoParse (some "text/csv") (some 10)
    ⟨["date", "description"], []⟩ []).2.2 (by decide) (by decide) (by decide)
  exact h.trans (by decide)

/-- C9 (amended): for a successfully processed row, the persisted currency is
`"USD"` when the currency column is absent; the trimmed cell value, with
`"USD"` substituted for a whitespace-only string, when the cell is a string;
and the literal string `"nan"` when the cell is empty, because pandas hands
the row a NaN and `str(nan).strip()` is `"nan"`, which the `or "USD"`
default does not replace. -/
theorem c9_currency_defaulting (duParse : String → Option String) (cols : List String)
    (row : List Cell) (hok : exceptOk (processRow duParse cols row) = true) :
    (getCell cols row "currency" = none →
      (processRow duParse cols row).toOption.map Transaction.currency = some "USD") ∧
    (∀ s, getCell cols row "currency" = some (.str s) →
      (processRow duParse cols row).toOption.map Transaction.currency =
        some (if pyStrip s = "" then "USD" else pyStrip s)) ∧
    (getCell cols row "currency" = some Cell.nan →
      (processRow duParse cols row).toOption.map Transaction.currency = some "nan") := by
  have key : ∀ t, processRow duParse cols row = .ok t →
      t.currency =
        (if pyStrip (pyStr ((getCell cols row "currency").getD (Cell.str "USD"))) = ""
         then "USD"
         else pyStrip (pyStr ((getCell cols row "currency").getD (Cell.str "USD")))) := by
    intro t hpr
    simp only [processRow, bind, Except.bind, pure, Except.pure] at hpr
    by_cases hcur : pyStrip (pyStr ((getCell cols row "currency").getD (Cell.str "USD"))) = ""
    · rw [if_pos hcur] at hpr ⊢
      repeat' split at hpr
      all_goals
        first
        | exact Except.noConfusion hpr
        | (injection hpr with hpr
           rw [← hpr])
    · rw [if_neg hcur] at hpr ⊢
      repeat' split at hpr
      all_goals
        first
        | exact Except.noConfusion hpr
        | (injection hpr with hpr
           rw [← hpr])
  refine ⟨fun hnone => ?_, fun s hs => ?_, fun hnan => ?_⟩
  · cases hpr : processRow duParse cols row with
    | error e => rw [hpr] at hok; simp [exceptOk] at hok
    | ok t =>
      have hcur := key t hpr
      rw [hnone] at hcur
      simp only [Except.toOption, Option.map]
      rw [hcur]
      rfl
  · cases hpr : processRow duParse cols row with
    | error e => rw [hpr] at hok; simp [exceptOk] at hok
    | ok t =>
      have hcur := key t hpr
      rw [hs] at hcur
      simp only [Except.toOption, Option.map]
      rw [hcur]
      rfl
  · cases hpr : processRow duParse cols row with
    | error e => rw [hpr] at hok; simp [exceptOk] at hok
    | ok t =>
      have hcur := key t hpr
      rw [hnan] at hcur
      simp only [Except.toOption, Option.map]
      rw [hcur]
      rfl

/-- Counterexample for C9: a row whose currency cell is blank reaches the
code as NaN, and the persisted currency is the string `"nan"`, not `"USD"`. -/
theorem c9_counterexample :
    (upload_transactions_csv isoParse (some "text/csv") (some 50) csvNanCur []).2.map
      Transaction.currency = ["nan"] ∧ ("nan" : String) ≠ "USD" := by
  constructor
  · decide
  · decide

/-- Witness for C9 (amended) at a concrete row with currency cell
`" eur "`, persisted as the trimmed `"eur"`. -/
theorem c9_witness :
    (processRow isoParse ["date", "description", "amount", "currency"]
      [.str "01/01/2024", .str "Coffee", .str "5.0", .str " eur "]).toOption.map
        Transaction.currency = some "eur" := by
  have h := (c9_currency_defaulting isoParse ["date", "description", "amount", "currency"]
    [.str "01/01/2024", .str "Coffee", .str "5.0", .str " eur "] (by decide)).2.1
    " eur " (by decide)
  exact h.trans (by decide)

/-- C2: for a structurally valid CSV, the collected errors are exactly one
`"Row N: reason"` string per failing row with `N` the 0-based position plus
2; every row is attempted, so imported, skipped and error counts sum to the
row count; and the call returns the counters when no error was collected but
fails with UnprocessableContent carrying the full error list — keeping the
inserts and skips already applied — when at least one was. -/
theorem c2_row_error_isolation (duParse : String → Option String) (contentType : Option String)
    (size : Option ℕ) (csv : Csv) (store : List Transaction)
    (hct : contentTypeOk contentType = true) (hsz : sizeExceeds size = false)
    (hval : validate_csv_content csv.columns = []) :
    (processRows duParse csv.columns csv.rows 0 ⟨0, 0, [], store⟩).row_errors =
      specRowErrors duParse csv.columns csv.rows ∧
    (processRows duParse csv.columns csv.rows 0 ⟨0, 0, [], store⟩).imported +
      (processRows duParse csv.columns csv.rows 0 ⟨0, 0, [], store⟩).skipped +
      (processRows duParse csv.columns csv.rows 0 ⟨0, 0, [], store⟩).row_errors.length =
      csv.rows.length ∧
    upload_transactions_csv duParse contentType size csv store =
      (if (processRows duParse csv.columns csv.rows 0 ⟨0, 0, [], store⟩).row_errors = []
       then (.ok ((processRows duParse csv.columns csv.rows 0 ⟨0, 0, [], store⟩).imported,
                  (processRows duParse csv.columns csv.rows 0 ⟨0, 0, [], store⟩).skipped),
             (processRows duParse csv.columns csv.rows 0 ⟨0, 0, [], store⟩).store)
       else (.error (.unprocessable
               (processRows duParse csv.columns csv.rows 0 ⟨0, 0, [], store⟩).row_errors),
             (processRows duParse csv.columns csv.rows 0 ⟨0, 0, [], store⟩).store)) := by
  refine ⟨?_, ?_, upload_run duParse contentType size csv store hct hsz hval⟩
  · rw [processRows_errors]
    simp [specRowErrors]
  · have h := processRows_count duParse csv.columns csv.rows 0 ⟨0, 0, [], store⟩
    simpa using h

/-- Witness for C2 at a concrete CSV whose second row has an unparseable
date: the valid first row is imported as a side effect, and the call fails
with the single error string for row 3. -/
theorem c2_witness :
    (upload_transactions_csv isoParse (some "text/csv") (some 99) csvErr []).1 =
      .error (.unprocessable ["Row 3: Invalid date format: nope"]) := by
  have h := (c2_row_error_isolation isoParse (some "text/csv") (some 99) csvErr []
    (by decide) (by decide) (by decide)).2.2
  rw [h]
  decide

/-- C1 (amended): for a structurally valid CSV all of whose rows process
successfully and whose dedup hash keys are pairwise distinct, uploading
against an empty store imports every row and skips none, the store then
holds exactly one transaction per row, and uploading the identical file
again imports none and skips every row, leaving the store unchanged. -/
theorem c1_idempotent_upload (duParse : String → Option String) (contentType : Option String)
    (size : Option ℕ) (csv : Csv)
    (hct : contentTypeOk contentType = true) (hsz : sizeExceeds size = false)
    (hval : validate_csv_content csv.columns = [])
    (hok : ∀ row ∈ csv.rows, exceptOk (processRow duParse csv.columns row) = true)
    (hnd : (rowKeys duParse csv.columns csv.rows).Nodup) :
    (upload_transactions_csv duParse contentType size csv []).1 = .ok (csv.rows.length, 0) ∧
    (upload_transactions_csv duParse contentType size csv []).2.length = csv.rows.length ∧
    upload_transactions_csv duParse contentType size csv
        (upload_transactions_csv duParse contentType size csv []).2 =
      (.ok (0, csv.rows.length), (upload_transactions_csv duParse contentType size csv []).2) := by
  obtain ⟨ts, hrun, hmap⟩ := processRows_all_new duParse csv.columns csv.rows 0 ⟨0, 0, [], []⟩
    hok hnd (by simp)
  have hu1 : upload_transactions_csv duParse contentType size csv [] =
      (.ok (csv.rows.length, 0), ts) := by
    rw [upload_run duParse contentType size csv [] hct hsz hval, hrun]
    simp
  have hlen : ts.length = csv.rows.length := by
    have h := congrArg List.length hmap
    rw [List.length_map] at h
    rw [h, rowKeys_length duParse csv.columns csv.rows hok]
  have hdup : ∀ row ∈ csv.rows, ∃ t, processRow duParse csv.columns row = .ok t ∧
      t.hash_key ∈ ts.map Transaction.hash_key := by
    intro row hr
    cases hpr : processRow duParse csv.columns row with
    | error e =>
      have h := hok row hr
      rw [hpr] at h
      simp [exceptOk] at h
    | ok t =>
      refine ⟨t, rfl, ?_⟩
      rw [hmap]
      exact List.mem_filterMap.mpr ⟨row, hr, by rw [hpr]; rfl⟩
  have hrun2 := processRows_all_dup duParse csv.columns csv.rows 0 ⟨0, 0, [], ts⟩ hdup
  have hu2 : upload_transactions_csv duParse contentType size csv ts =
      (.ok (0, csv.rows.length), ts) := by
    rw [upload_run duParse contentType size csv ts hct hsz hval, hrun2]
    simp
  rw [hu1]
  exact ⟨rfl, hlen, by rw [hu2]⟩

/-- Witness for C1 (amended) at a concrete valid two-row CSV. -/
theorem c1_witness :
    (upload_transactions_csv isoParse (some "text/csv") (some 60) csvPair []).1 = .ok (2, 0) ∧
    (upload_transactions_csv isoParse (some "text/csv") (some 60) csvPair []).2.length = 2 ∧
    upload_transactions_csv isoParse (some "text/csv") (some 60) csvPair
        (upload_transactions_csv isoParse (some "text/csv") (some 60) csvPair []).2 =
      (.ok (0, 2), (upload_transactions_csv isoParse (some "text/csv") (some 60) csvPair []).2) :=
  c1_idempotent_upload isoParse (some "text/csv") (some 60) csvPair
    (by decide) (by decide) (by decide) (by decide) (by decide)

/-- Counterexample for C1 as stated: `csvInj` is a valid CSV whose two rows
have pairwise distinct normalized (date, description, amount, currency)
tuples, yet uploading it against the empty store returns
`{imported: 1, skipped: 1}`, not `{imported: 2, skipped: 0}`, because the
two rows share one dedup hash key through separator injection. -/
theorem c1_counterexample :
    (∀ row ∈ csvInj.rows, exceptOk (processRow isoParse csvInj.columns row) = true) ∧
    (processRow isoParse csvInj.columns (csvInj.rows.getD 0 [])).toOption.map
        (fun t => (t.date, t.description, t.amount, t.currency)) ≠
      (processRow isoParse csvInj.columns (csvInj.rows.getD 1 [])).toOption.map
        (fun t => (t.date, t.description, t.amount, t.currency)) ∧
    (upload_transactions_csv isoParse (some "text/csv") (some 60) csvInj []).1 = .ok (1, 1) ∧
    (upload_transactions_csv isoParse (some "text/csv") (some 60) csvInj []).1 ≠ .ok (2, 0) := by
  refine ⟨by decide, by decide, by decide, by decide⟩

/-- C8: the query filter is the last-30-days window when neither bound is
given and the inclusive lexicographic range of the given bounds otherwise;
the total is the full filtered count, independent of page and limit; the
returned page is the filtered set sorted by date descending with
`(page - 1) * limit` records skipped and at most `limit` returned; and every
returned record satisfies the filter. -/
theorem c8_query_service (thirty_days_ago : String) (from_date to_date : Option String)
    (page limit page2 limit2 : ℕ) (store : List Transaction) :
    (∀ t, txMatches thirty_days_ago from_date to_date t = true ↔
      specMatches thirty_days_ago from_date to_date t) ∧
    (get_transactions thirty_days_ago from_date to_date page limit store).total =
      (store.filter (txMatches thirty_days_ago from_date to_date)).length ∧
    (get_transactions thirty_days_ago from_date to_date page limit store).total =
      (get_transactions thirty_days_ago from_date to_date page2 limit2 store).total ∧
    (get_transactions thirty_days_ago from_date to_date page limit store).data =
      (((store.filter (txMatches thirty_days_ago from_date to_date)).mergeSort
          fun a b : Transaction => decide (b.date ≤ a.date)).drop ((page - 1) * limit)).take
        limit ∧
    (get_transactions thirty_days_ago from_date to_date page limit store).data.length ≤ limit ∧
    List.Pairwise (fun a b : Transaction => b.date ≤ a.date)
      (get_transactions thirty_days_ago from_date to_date page limit store).data ∧
    (∀ t ∈ (get_transactions thirty_days_ago from_date to_date page limit store).data,
      txMatches thirty_days_ago from_date to_date t = true) := by
  have hdata : (get_transactions thirty_days_ago from_date to_date page limit store).data =
      (((store.filter (txMatches thirty_days_ago from_date to_date)).mergeSort
          fun a b : Transaction => decide (b.date ≤ a.date)).drop ((page - 1) * limit)).take
        limit := rfl
  have hs := @List.sorted_mergeSort Transaction
    (fun a b : Transaction => decide (b.date ≤ a.date))
    (fun a b c hab hbc => by
      simp only [decide_eq_true_eq] at hab hbc ⊢
      exact le_trans hbc hab)
    (fun a b => by
      simp only [Bool.or_eq_true, decide_eq_true_eq]
      exact le_total b.date a.date)
    (store.filter (txMatches thirty_days_ago from_date to_date))
  have hsub : ((((store.filter (txMatches thirty_days_ago from_date to_date)).mergeSort
      fun a b : Transaction => decide (b.date ≤ a.date)).drop
        ((page - 1) * limit)).take limit).Sublist
      ((store.filter (txMatches thirty_days_ago from_date to_date)).mergeSort
        fun a b : Transaction => decide (b.date ≤ a.date)) :=
    (List.take_sublist _ _).trans (List.drop_sublist _ _)
  refine ⟨?_, rfl, rfl, hdata, ?_, ?_, ?_⟩
  · intro t
    cases from_date with
    | none =>
      cases to_date with
      | none => simp [txMatches, specMatches, optGiven]
      | some u =>
        by_cases hu : u = ""
        · subst hu
          simp [txMatches, specMatches, optGiven]
        · simp [txMatches, specMatches, optGiven, hu]
    | some f =>
      by_cases hf : f = ""
      · subst hf
        cases to_date with
        | none => simp [txMatches, specMatches, optGiven]
        | some u =>
          by_cases hu : u = ""
          · subst hu
            simp [txMatches, specMatches, optGiven]
          · simp [txMatches, specMatches, optGiven, hu]
      · cases to_date with
        | none => simp [txMatches, specMatches, optGiven, hf]
        | some u =>
          by_cases hu : u = ""
          · subst hu
            simp [txMatches, specMatches, optGiven, hf]
          · simp [txMatches, specMatches, optGiven, hf, hu]
  · rw [hdata]
    exact List.length_take_le _ _
  · rw [hdata]
    exact (List.Pairwise.sublist hsub hs).imp fun h => of_decide_eq_true h
  · intro t ht
    rw [hdata] at ht
    have h2 := hsub.subset ht
    have h3 := ((List.mergeSort_perm _ _).mem_iff).mp h2
    exact (List.mem_filter.mp h3).2
